import Mathlib

/-!
# Verification of the react-big-calendar drag-and-drop addon

Shallow embedding of the drag/hover/drop interaction layer of the
repository's three source files:

* `src/addons/dragAndDrop/backgroundWrapper.js` (named copy) — the
  Drop-Target Adapter: `getEventTimes`, and the `drop`/`hover` handlers
  of `createWrapper`.
* `src/unnamed/part_001` — a second revision of the same background
  wrapper module (adds an enter callback, handles move hovers, and uses
  the `'hover'` phase for resize hovers).
* `src/unnamed/part_000` — the calendar component file whose
  `DateContentRowWrapper` class implements the segment drag state
  machine: `handleSegmentDrag`, `handleSegmentHover`, `handleSegmentDrop`
  and `handleBackgroundCellHoverExit`.

Instants are modelled as integer milliseconds since the epoch.  JS
objects become Lean structures; the process-wide mutable cells
(`window.RBC_DRAG_POS`, `window.RBC_RESIZE_VALUE`) are threaded
explicitly as `Option` values; a code path that throws in JS
(member access on `null`/`undefined`) is modelled by an `Option`-valued
result returning `none`.  Host callbacks are modelled by returning the
list of calls a handler emits.
-/

namespace RBC

/-- Instants as milliseconds since the epoch (JS `Date` value). -/
abbrev Instant := Int

/-- Milliseconds in one day; used to model day-granular date arithmetic. -/
def dayMs : Int := 86400000

/-- Modelled from the spec: `dates.diff(start, end)` from
`../../utils/dates` (not under `src/`): "duration = original
`end - start`" in milliseconds. -/
def datesDiff (start end_ : Instant) : Int := end_ - start

/-- `date-fns/add_milliseconds`: add a millisecond delta to an instant. -/
def addMilliseconds (d : Instant) (ms : Int) : Instant := d + ms

/-- `date-fns/add_days`: add whole days to an instant. -/
def addDays (d : Instant) (n : Nat) : Instant := d + n * dayMs

/-- The time-of-day component of an instant (milliseconds past midnight);
`Int.emod` is non-negative here, matching a clock reading. -/
def timeOfDay (d : Instant) : Int := d % dayMs

/-- The midnight instant of the day containing `d`. -/
def dayStart (d : Instant) : Int := d - d % dayMs

/-- Modelled from the spec: `helpers.merge(date, time)` from
`./helpers` (not under `src/`): "the new start preserves the original
time-of-day merged onto the new date" — day part of `date`,
time-of-day of `time`. -/
def mergeDateTime (date time : Instant) : Instant := dayStart date + timeOfDay time

/-- Result record of `getEventTimes` (`{start, end}` in the source;
`end` is a Lean keyword, hence `end_`). -/
structure EventTimes where
  start : Instant
  end_ : Instant
deriving DecidableEq, Repr

/-- `getEventTimes(start, end, dropDate, type)` from
`backgroundWrapper.js` / `part_001` (both copies are identical here):
duration between the original instants; the next start merges the
original time-of-day onto the drop date for a `'dateCellWrapper'`
target and is the raw drop date otherwise; the next end adds the
duration to the next start. -/
def getEventTimes (start end_ dropDate : Instant) (type : String) : EventTimes :=
  let duration := datesDiff start end_
  let nextStart := if type == "dateCellWrapper" then mergeDateTime dropDate start else dropDate
  let nextEnd := addMilliseconds nextStart duration
  { start := nextStart, end_ := nextEnd }

/-- C1: for an event with start `T0` and end `T0 + D`, dropping onto any
target instant `T1` — whether a day cell (`'dateCellWrapper'`) or any
other target type — yields a pair whose `end - start` is exactly `D`. -/
theorem getEventTimes_duration_invariant (T0 D T1 : Instant) (type : String) :
    (getEventTimes T0 (T0 + D) T1 type).end_ - (getEventTimes T0 (T0 + D) T1 type).start = D := by
  simp only [getEventTimes, datesDiff, addMilliseconds]
  ring

/-- C8: the new start is the time-of-day merge of the original start
onto the dropped date exactly when the target is a `'dateCellWrapper'`
(same time-of-day as the original start, same day as the drop date), is
the raw dropped instant for every other target, and in both cases the
new end is the new start plus the original duration. -/
theorem getEventTimes_start_rule (s e d : Instant) (ty : String) :
    (getEventTimes s e d ty).start =
      (if ty == "dateCellWrapper" then mergeDateTime d s else d) ∧
    (getEventTimes s e d ty).end_ = (getEventTimes s e d ty).start + (e - s) ∧
    timeOfDay (mergeDateTime d s) = timeOfDay s ∧
    dayStart (mergeDateTime d s) = dayStart d := by
  refine ⟨rfl, rfl, ?_, ?_⟩
  · simp only [mergeDateTime, timeOfDay, dayStart, dayMs]
    omega
  · simp only [mergeDateTime, timeOfDay, dayStart, dayMs]
    omega

/-! ## Data model of the segment drag state machine (`part_000`) -/

/-- An event record as handled by `DateContentRowWrapper`.  JS `===`
on event objects is modelled by structural equality (every synthesized
event carries a fresh `id`, keeping the two notions aligned where the
code compares).  `end` is a Lean keyword, hence `end_`.  The `type`
field models the user-settable `data.type` tag that `part_001`'s drop
handler inspects (`event.type === 'outsideEvent'`). -/
structure Event where
  id : Nat
  eventTemplateId : Option Nat := none
  type : String := ""
  start : Instant := 0
  end_ : Instant := 0
  weight : Rat := 0
  locked : Bool := false
deriving DecidableEq, Repr

/-- A segment of the Segment Layout Model: one event's placement in a
row, as stored in the `levels` state (`{event, left, right, level,
isHidden}`). -/
structure Seg where
  event : Event
  left : Nat
  right : Nat
  level : Nat
  isHidden : Bool := false
deriving DecidableEq, Repr

/-- A `{level, left}` position, as passed to the hover/drop handlers. -/
structure Pos where
  level : Nat
  left : Nat
deriving DecidableEq, Repr

/-- The shape of the shared drag position (`window.RBC_DRAG_POS`) and
of the `drag` state field.  The outside-insert path additionally stores
the drag's `span`. -/
structure DragPos where
  level : Nat
  left : Nat
  span : Option Nat := none
deriving DecidableEq, Repr

/-- The state of one `DateContentRowWrapper` instance: the packed
`levels` plus the drag bookkeeping fields.  `insertedOutsideEvent`
starts out absent (JS `undefined`), modelled as `false`. -/
structure RowState where
  levels : List (List Seg)
  drag : Option DragPos := none
  hover : Option Pos := none
  hoverData : Option Event := none
  insertedOutsideEvent : Bool := false
deriving DecidableEq, Repr

/-- The drag item delivered to `handleSegmentHover`
(`{type, data, position: {span}}`). -/
structure DragEvent where
  type : String
  data : Event
  span : Nat
deriving DecidableEq, Repr

/-- `_posEq` from `part_000`: `a.left === b.left && a.level === b.level`,
applied to the tracked drag position and the hovered position. -/
def posEq (a : DragPos) (b : Pos) : Bool :=
  a.left == b.left && a.level == b.level

/-- `handleSegmentDrag`: stores the drag-start position in the shared
cell `window.RBC_DRAG_POS`. -/
def handleSegmentDrag (drag : Option DragPos) : Option DragPos := drag

/-- Model of `events.sort(({weight: a}, {weight: b}) => (a < b ? -1 : 1))`:
a sort of the event list by ascending weight (the JS comparator is
inconsistent on ties, leaving tie order implementation-defined; this
model keeps ties stable). -/
def insertByWeight (e : Event) : List Event → List Event
  | [] => [e]
  | x :: xs => if e.weight < x.weight then e :: x :: xs else x :: insertByWeight e xs

/-- Sort a list of events by ascending weight (see `insertByWeight`). -/
def sortByWeight : List Event → List Event
  | [] => []
  | x :: xs => insertByWeight x (sortByWeight xs)

/-- The provisional event synthesized by `handleSegmentHover` for a drag
originating outside the calendar: the dragged template data with a
fresh id (`cuid()`, modelled as the `newId` parameter), the template's
own id recorded as `eventTemplateId` (the destructuring swap
`{id: eventTemplateId, eventTemplateId: id, ...}`), `locked: false`,
`start = hoverData.start`, `end = addDays(hoverData.start, span)` and
`weight = hoverData.weight - 0.5`. -/
def synthOutsideEvent (de : DragEvent) (hoverData : Event) (newId : Nat) : Event :=
  { de.data with
    id := newId
    eventTemplateId := some de.data.id
    locked := false
    start := hoverData.start
    end_ := addDays hoverData.start de.span
    weight := hoverData.weight - 1/2 }

/-- The per-row lookup building one entry of `cellSegs`:
`findIndex(propEq('left', dleft))` followed by
`{...segs[idx], idx, isHidden: false}`; `none` models the `{idx: -1}`
marker entry. -/
def findLeft (dleft : Nat) : List Seg → Option (Nat × Seg)
  | [] => none
  | sg :: rest =>
    if sg.left == dleft then some (0, { sg with isHidden := false })
    else (findLeft dleft rest).map (fun p => (p.1 + 1, p.2))

/-- The write-back loop of the hover swap:
`cellSegs.forEach(({idx, ...seg}, i) => { if (idx === -1) return;
seg.level = i; levels[i][idx] = seg; })`.  `k` is the row index of the
head of the remaining lists. -/
def writeback : List (List Seg) → List (Option (Nat × Seg)) → Nat → List (List Seg)
  | [], _, _ => []
  | lvls, [], _ => lvls
  | lvl :: lvls, e :: es, k =>
    (match e with
     | none => lvl
     | some (idx, sg) => lvl.set idx { sg with level := k }) :: writeback lvls es (k + 1)

/-- The scan for the freshly inserted outside event:
`for` each level, `lvl.find(({event}) => event === data)`, stopping at
the first hit and reading that segment's `level` field. -/
def findEventLevel (data : Event) : List (List Seg) → Option Nat
  | [] => none
  | lvl :: rest =>
    match lvl.find? (fun sg => sg.event == data) with
    | some sg => some sg.level
    | none => findEventLevel data rest

/-- The non-outside branch of `handleSegmentHover` (from the `_posEq`
check onward).  `none` models a JS exception: reading `.level` of a
`null` `window.RBC_DRAG_POS`, indexing `cellSegs` out of range, or the
object surgery on an `{idx: -1}` entry (which in JS proceeds with
field-less objects and writes malformed segments).  On the swap path the
two entries of `cellSegs` at the drag and hover rows are replaced
(`cellSegs[dlevel] = {idx: didx, ...hseg}`,
`cellSegs[hlevel] = {idx: hidx, ...dseg, level: hlevel}` after
`dseg.isHidden = true`), everything is written back into `levels`, the
shared drag cell gets `{...drag, level: hlevel}` — only the level — and
`hover`/`hoverData` are stored in state. -/
def segHoverSwap (s : RowState) (g : Option DragPos) (hover : Pos) (hoverData : Event) :
    Option (RowState × Option DragPos) :=
  match g with
  | none => none
  | some drag =>
    if posEq drag hover then some (s, g)
    else
      let dleft := drag.left
      let cellSegs := s.levels.map (findLeft dleft)
      match cellSegs[drag.level]?, cellSegs[hover.level]? with
      | some (some (didx, dseg)), some (some (hidx, hseg)) =>
        let dseg' := { dseg with isHidden := true }
        let cellSegs' :=
          (cellSegs.set drag.level (some (didx, hseg))).set hover.level
            (some (hidx, { dseg' with level := hover.level }))
        let newLevels := writeback s.levels cellSegs' 0
        some ({ s with levels := newLevels, hover := some hover, hoverData := some hoverData },
              some { drag with level := hover.level })
      | _, _ => none

/-- `handleSegmentHover({position: hover, data: hoverData}, dragEvent)`
from `part_000`.  The packing engine `withLevels` (imported from
`../../utils/eventLevels`, not under `src/`) is passed in as the
function parameter `wl`; `events` are the component's props events;
`g` is the shared cell `window.RBC_DRAG_POS`; `newId` models the
`cuid()` call.  Returns the new `(state, shared cell)` pair, or `none`
for a path that throws in JS.  The source body invokes no host
callbacks.  On the one-shot outside-insert branch the synthesized event
is appended, the events are re-sorted by weight, the levels recomputed
by `wl`, the new event's level located (`none` when the scan misses and
`nextDragData.level` would throw) and stored — together with the
hovered `left` and the span — in the state's `drag` field;
`insertedOutsideEvent` is set and the shared cell is left untouched. -/
def handleSegmentHover (wl : List Event → List (List Seg)) (events : List Event)
    (s : RowState) (g : Option DragPos) (hover : Pos) (hoverData : Event)
    (dragEvent : DragEvent) (newId : Nat) : Option (RowState × Option DragPos) :=
  if !s.insertedOutsideEvent && dragEvent.type == "outsideEvent" then
    let data := synthOutsideEvent dragEvent hoverData newId
    let events' := sortByWeight (events ++ [data])
    let levels := wl events'
    match findEventLevel data levels with
    | none => none
    | some lvl =>
      some ({ s with levels := levels,
                     drag := some { level := lvl, left := hover.left, span := some dragEvent.span },
                     insertedOutsideEvent := true }, g)
  else
    segHoverSwap s g hover hoverData

/-- One emitted call to the host's `onEventReorder` callback. -/
inductive ReorderCall where
  | reorder (dragged : Event) (hoverData : Event) (originLevel : Nat) (targetLevel : Nat)
      (ordered : List Event)
deriving DecidableEq, Repr

/-- `handleSegmentDrop({level, left})` from `part_000`.
`hasReorderCallback` models whether the context supplied
`onEventReorder` (the call site is guarded by `onEventReorder &&`).
If `hoverData` is null the handler returns at once — nothing is
cleared.  Otherwise it reads `drag` from the shared cell (`none`
models the JS throw on a null cell or an out-of-range row), looks up
the segment at the drag's `left` in the drag's row, clearing only the
component state when it is missing, and otherwise collects the events
found at that column across all rows, emits the reorder call, nulls
the shared cell and clears `hover`/`hoverData`. -/
def handleSegmentDrop (s : RowState) (g : Option DragPos) (dropPos : Pos)
    (hasReorderCallback : Bool) : Option (RowState × Option DragPos × List ReorderCall) :=
  match s.hoverData with
  | none => some (s, g, [])
  | some hoverData =>
    match g with
    | none => none
    | some drag =>
      match s.levels[drag.level]? with
      | none => none
      | some row =>
        match row.find? (fun sg => drag.left == sg.left) with
        | none => some ({ s with drag := none, hover := none, hoverData := none }, g, [])
        | some dragSeg =>
          let events := s.levels.filterMap (fun r =>
            (r.find? (fun sg => drag.left == sg.left)).map (fun sg => sg.event))
          let calls := if hasReorderCallback then
              [ReorderCall.reorder dragSeg.event hoverData drag.level dropPos.level events]
            else []
          some ({ s with hover := none, hoverData := none }, none, calls)

/-- `handleBackgroundCellHoverExit` from `part_000`: the body computes
`withLevels(this.props)` into a local and discards it; the `setState`
that would reset the layout and clear `drag` is commented out, so the
handler changes neither the component state nor the shared cell. -/
def handleBackgroundCellHoverExit (wl : List Event → List (List Seg)) (events : List Event)
    (s : RowState) (g : Option DragPos) : RowState × Option DragPos :=
  let _ := wl events
  (s, g)

/-! ## Helper lemmas -/

/-- A successful `getElem?` witnesses an in-range index. -/
lemma getElem?_some_lt {α : Type} {l : List α} {n : Nat} {a : α} (h : l[n]? = some a) :
    n < l.length := by
  by_contra hn
  push_neg at hn
  rw [List.getElem?_eq_none hn] at h
  exact Option.noConfusion h

/-- The index returned by `findLeft` is in range of the scanned row. -/
lemma findLeft_lt_length (l : Nat) : ∀ (segs : List Seg) (i : Nat) (sg : Seg),
    findLeft l segs = some (i, sg) → i < segs.length := by
  intro segs
  induction segs with
  | nil => intro i sg h; simp [findLeft] at h
  | cons a as ih =>
    intro i sg h
    unfold findLeft at h
    split at h
    · simp at h
      obtain ⟨h1, _⟩ := h
      simp [← h1]
    · cases hrec : findLeft l as with
      | none => rw [hrec] at h; simp at h
      | some p =>
        rw [hrec] at h
        simp at h
        obtain ⟨h1, _⟩ := h
        have := ih p.1 p.2 (by rw [hrec])
        simp
        omega

/-- Reading the written-back levels at a row whose `cellSegs` entry was a
found segment: the row's `idx` slot is overwritten with the entry's
segment, its `level` field renumbered to the row index. -/
lemma writeback_getElem?_entry : ∀ (lvls : List (List Seg)) (es : List (Option (Nat × Seg)))
    (k i : Nat) (lvl : List Seg) (idx : Nat) (sg : Seg),
    lvls[i]? = some lvl → es[i]? = some (some (idx, sg)) →
    (writeback lvls es k)[i]? = some (lvl.set idx { sg with level := k + i })
  | [], _, _, i, _, _, _, h1, _ => by simp at h1
  | _ :: _, [], _, i, _, _, _, _, h2 => by simp at h2
  | l :: ls, e :: es, k, 0, lvl, idx, sg, h1, h2 => by
    simp at h1 h2
    subst h1
    subst h2
    simp [writeback]
  | l :: ls, e :: es, k, (i+1), lvl, idx, sg, h1, h2 => by
    simp at h1 h2
    have hrec := writeback_getElem?_entry ls es (k+1) i lvl idx sg h1 h2
    have harith : k + 1 + i = k + (i + 1) := by omega
    rw [harith] at hrec
    simpa [writeback] using hrec

/-! ## Claims about the hover handler (`handleSegmentHover`) -/

/-- C3: idempotent hover — a `handleSegmentHover` call whose hovered
position equals the tracked drag position (and which is not the
one-shot outside-insert transition) is a no-op: the component state and
the shared drag cell are returned unchanged, and no callback is emitted
(the source body of `handleSegmentHover` invokes no host callback on
any path). -/
theorem handleSegmentHover_idempotent (wl : List Event → List (List Seg)) (events : List Event)
    (s : RowState) (drag : DragPos) (hover : Pos) (hoverData : Event)
    (de : DragEvent) (nid : Nat)
    (hskip : de.type ≠ "outsideEvent" ∨ s.insertedOutsideEvent = true)
    (heq : posEq drag hover = true) :
    handleSegmentHover wl events s (some drag) hover hoverData de nid = some (s, some drag) := by
  have hcond : (!s.insertedOutsideEvent && de.type == "outsideEvent") = false := by
    rcases hskip with h | h
    · simp [h]
    · simp [h]
  simp [handleSegmentHover, hcond, segHoverSwap, heq]

/-- Witness for C3 at a concrete input: a second hover at the tracked
drag position `{level := 2, left := 3}` during a plain event drag
returns the state and the shared cell untouched. -/
theorem handleSegmentHover_idempotent_witness :
    handleSegmentHover (fun _ => []) [] { levels := [] } (some ⟨2, 3, none⟩) ⟨2, 3⟩
      { id := 5 } ⟨"event", { id := 6 }, 0⟩ 1 = some ({ levels := [] }, some ⟨2, 3, none⟩) :=
  handleSegmentHover_idempotent _ _ _ _ _ _ _ _ (Or.inl (by decide)) (by decide)

/-- C2 counterexample: dragging from `{level 0, left 0}` and hovering
`{level 1, left 5}` leaves the shared drag cell at
`{level 1, left 0}` — its `left` stays the drag's left, it does not
become the hover's left `5` as the claim states. -/
theorem handleSegmentHover_drag_left_cex :
    (handleSegmentHover (fun _ => []) []
        { levels := [[{ event := { id := 0 }, left := 0, right := 1, level := 0 }],
                     [{ event := { id := 1 }, left := 0, right := 1, level := 1 }]] }
        (some ⟨0, 0, none⟩) ⟨1, 5⟩ { id := 1 } ⟨"event", { id := 0 }, 0⟩ 99).map
      (fun r => r.2) = some (some ⟨1, 0, none⟩) ∧
    (some (⟨1, 0, none⟩ : DragPos)) ≠ some ⟨1, 5, none⟩ := by
  exact ⟨by decide, by decide⟩

/-- C2 as amended: on a hover whose position differs from the tracked
drag position (and lands on a different row), the handler swaps the
segments found at the **drag's** left column in the drag row and the
hover row — the hover's own `left` is never consulted — marking the
origin copy `isHidden`, stores the hover position and data in state,
and updates only the `level` of the shared drag cell to the hover's
level; the cell's `left` keeps the drag's left. -/
theorem handleSegmentHover_swap (wl : List Event → List (List Seg)) (events : List Event)
    (s : RowState) (drag : DragPos) (hover : Pos) (hoverData : Event)
    (de : DragEvent) (nid : Nat)
    (didx hidx : Nat) (dseg hseg : Seg) (drow hrow : List Seg)
    (hskip : de.type ≠ "outsideEvent" ∨ s.insertedOutsideEvent = true)
    (hne : posEq drag hover = false)
    (hlvl : drag.level ≠ hover.level)
    (hd : s.levels[drag.level]? = some drow)
    (hh : s.levels[hover.level]? = some hrow)
    (hfd : findLeft drag.left drow = some (didx, dseg))
    (hfh : findLeft drag.left hrow = some (hidx, hseg)) :
    ∃ s', handleSegmentHover wl events s (some drag) hover hoverData de nid =
        some (s', some { level := hover.level, left := drag.left, span := drag.span }) ∧
      s'.hover = some hover ∧ s'.hoverData = some hoverData ∧
      (∃ drow', s'.levels[drag.level]? = some drow' ∧
        drow'[didx]? = some { hseg with level := drag.level }) ∧
      (∃ hrow', s'.levels[hover.level]? = some hrow' ∧
        hrow'[hidx]? = some { dseg with isHidden := true, level := hover.level }) := by
  have hcond : (!s.insertedOutsideEvent && de.type == "outsideEvent") = false := by
    rcases hskip with h | h
    · simp [h]
    · simp [h]
  have hc1 : (s.levels.map (findLeft drag.left))[drag.level]? = some (some (didx, dseg)) := by
    rw [List.getElem?_map, hd]
    simp [hfd]
  have hc2 : (s.levels.map (findLeft drag.left))[hover.level]? = some (some (hidx, hseg)) := by
    rw [List.getElem?_map, hh]
    simp [hfh]
  have hdlt : drag.level < (s.levels.map (findLeft drag.left)).length := getElem?_some_lt hc1
  set cellSegs := s.levels.map (findLeft drag.left) with hcs
  set cellSegs' :=
    (cellSegs.set drag.level (some (didx, hseg))).set hover.level
      (some (hidx, { dseg with isHidden := true, level := hover.level })) with hcs'
  have he1 : cellSegs'[drag.level]? = some (some (didx, hseg)) := by
    rw [hcs', List.getElem?_set_ne (Ne.symm hlvl), List.getElem?_set_eq_of_lt _ hdlt]
  have he2 : cellSegs'[hover.level]? =
      some (some (hidx, { dseg with isHidden := true, level := hover.level })) := by
    rw [hcs', List.getElem?_set_eq_of_lt _ (by rw [List.length_set]; exact getElem?_some_lt hc2)]
  have hw1 := writeback_getElem?_entry s.levels cellSegs' 0 drag.level drow didx hseg hd he1
  have hw2 := writeback_getElem?_entry s.levels cellSegs' 0 hover.level hrow hidx
    { dseg with isHidden := true, level := hover.level } hh he2
  simp only [Nat.zero_add] at hw1 hw2
  have hmain : handleSegmentHover wl events s (some drag) hover hoverData de nid =
      some ({ s with levels := writeback s.levels cellSegs' 0,
                     hover := some hover, hoverData := some hoverData },
            some { level := hover.level, left := drag.left, span := drag.span }) := by
    simp only [handleSegmentHover, hcond, Bool.false_eq_true, if_false, segHoverSwap, hne,
      ← hcs, hc1, hc2, ← hcs']
  refine ⟨_, hmain, rfl, rfl, ⟨_, hw1, ?_⟩, ⟨_, hw2, ?_⟩⟩
  · rw [List.getElem?_set_eq_of_lt _ (findLeft_lt_length _ drow didx dseg hfd)]
  · rw [List.getElem?_set_eq_of_lt _ (findLeft_lt_length _ hrow hidx hseg hfh)]

/-- Witness for the amended C2 at the counterexample's concrete input:
after the hover, level 0 holds event 1's segment, level 1 holds event
0's segment marked hidden, and the shared cell reads
`{level 1, left 0}`. -/
theorem handleSegmentHover_swap_witness :
    ∃ s', handleSegmentHover (fun _ => []) []
        { levels := [[{ event := { id := 0 }, left := 0, right := 1, level := 0 }],
                     [{ event := { id := 1 }, left := 0, right := 1, level := 1 }]] }
        (some ⟨0, 0, none⟩) ⟨1, 5⟩ { id := 1 } ⟨"event", { id := 0 }, 0⟩ 99 =
        some (s', some { level := 1, left := 0, span := none }) ∧
      s'.hover = some ⟨1, 5⟩ ∧ s'.hoverData = some { id := 1 } ∧
      (∃ drow', s'.levels[(0 : Nat)]? = some drow' ∧
        drow'[(0 : Nat)]? = some { event := { id := 1 }, left := 0, right := 1,
                                   level := 0, isHidden := false }) ∧
      (∃ hrow', s'.levels[(1 : Nat)]? = some hrow' ∧
        hrow'[(0 : Nat)]? = some { event := { id := 0 }, left := 0, right := 1,
                                   level := 1, isHidden := true }) :=
  handleSegmentHover_swap (fun _ => []) []
    { levels := [[{ event := { id := 0 }, left := 0, right := 1, level := 0 }],
                 [{ event := { id := 1 }, left := 0, right := 1, level := 1 }]] }
    ⟨0, 0, none⟩ ⟨1, 5⟩ { id := 1 }
    ⟨"event", { id := 0 }, 0⟩ 99 0 0
    { event := { id := 0 }, left := 0, right := 1, level := 0, isHidden := false }
    { event := { id := 1 }, left := 0, right := 1, level := 1, isHidden := false }
    [{ event := { id := 0 }, left := 0, right := 1, level := 0 }]
    [{ event := { id := 1 }, left := 0, right := 1, level := 1 }]
    (Or.inl (by decide)) (by decide) (by decide) (by decide) (by decide)
    (by decide) (by decide)

/-- C5: first hover of a drag originating outside the calendar — when
`insertedOutsideEvent` is not yet set and the drag item is tagged
`'outsideEvent'`, the handler synthesizes exactly one provisional event
(fresh id `nid`, `start = hoverData.start`,
`end = start + span` days, weight half a step before the hovered
event's), appends it to the event collection, re-runs the packing
engine over the weight-sorted collection, stores the packed levels and
the new event's assigned level as the drag position, and sets the
`insertedOutsideEvent` guard; when the guard is already set the branch
is skipped and the hover follows the normal swap path. -/
theorem handleSegmentHover_outside_insert (wl : List Event → List (List Seg))
    (events : List Event) (s : RowState) (g : Option DragPos) (hover : Pos)
    (hoverData : Event) (de : DragEvent) (nid : Nat) (lvl : Nat)
    (hins : s.insertedOutsideEvent = false)
    (hty : de.type = "outsideEvent")
    (hfind : findEventLevel (synthOutsideEvent de hoverData nid)
        (wl (sortByWeight (events ++ [synthOutsideEvent de hoverData nid]))) = some lvl) :
    (handleSegmentHover wl events s g hover hoverData de nid =
      some ({ s with
              levels := wl (sortByWeight (events ++ [synthOutsideEvent de hoverData nid])),
              drag := some { level := lvl, left := hover.left, span := some de.span },
              insertedOutsideEvent := true }, g)) ∧
    (synthOutsideEvent de hoverData nid).start = hoverData.start ∧
    (synthOutsideEvent de hoverData nid).end_ = hoverData.start + de.span * dayMs ∧
    (synthOutsideEvent de hoverData nid).weight = hoverData.weight - 1/2 ∧
    (synthOutsideEvent de hoverData nid).id = nid ∧
    (∀ (s2 : RowState) (g2 : Option DragPos), s2.insertedOutsideEvent = true →
      handleSegmentHover wl events s2 g2 hover hoverData de nid =
        segHoverSwap s2 g2 hover hoverData) := by
  refine ⟨?_, rfl, rfl, rfl, rfl, ?_⟩
  · simp [handleSegmentHover, hins, hty, hfind]
  · intro s2 g2 h2
    simp [handleSegmentHover, h2]

/-- Witness for C5: an external template (id 7) with span 2 hovered
over a cell whose `hoverData.start` is 2024-03-01T00:00Z
(`1709251200000` ms) synthesizes one event with id 42,
start 2024-03-01, end 2024-03-03 (`1709424000000` ms) and weight `1/2`
(half below the hovered weight `1`), packs it at level 0 and sets the
one-shot guard. -/
theorem handleSegmentHover_outside_insert_witness :
    (handleSegmentHover
        (fun evs => [evs.map (fun e => { event := e, left := 0, right := 1, level := 0 })]) []
        { levels := [] } none ⟨0, 4⟩ { id := 3, start := 1709251200000, weight := 1 }
        ⟨"outsideEvent", { id := 7 }, 2⟩ 42 =
      some ({ levels := [[{ event := synthOutsideEvent ⟨"outsideEvent", { id := 7 }, 2⟩
                                       { id := 3, start := 1709251200000, weight := 1 } 42,
                            left := 0, right := 1, level := 0 }]],
              drag := some { level := 0, left := 4, span := some 2 },
              insertedOutsideEvent := true }, none)) ∧
    (synthOutsideEvent ⟨"outsideEvent", { id := 7 }, 2⟩
        { id := 3, start := 1709251200000, weight := 1 } 42).start = 1709251200000 ∧
    (synthOutsideEvent ⟨"outsideEvent", { id := 7 }, 2⟩
        { id := 3, start := 1709251200000, weight := 1 } 42).end_ = 1709424000000 ∧
    (synthOutsideEvent ⟨"outsideEvent", { id := 7 }, 2⟩
        { id := 3, start := 1709251200000, weight := 1 } 42).id = 42 := by
  have h := handleSegmentHover_outside_insert
    (fun evs => [evs.map (fun e => { event := e, left := 0, right := 1, level := 0 })]) []
    { levels := [] } none ⟨0, 4⟩ { id := 3, start := 1709251200000, weight := 1 }
    ⟨"outsideEvent", { id := 7 }, 2⟩ 42 0 rfl rfl
    (by simp [sortByWeight, insertByWeight, findEventLevel])
  refine ⟨?_, h.2.1, ?_, h.2.2.2.2.1⟩
  · rw [h.1]
    rfl
  · rw [h.2.2.1]
    norm_num [dayMs]

/-! ## Claims about the drop handler (`handleSegmentDrop`) -/

/-- C4 counterexample: a drop with `hoverData` null during a drag whose
shared cell holds `{level 0, left 3}` emits no callback, but clears
nothing — the shared drag-position cell (and the state's `drag` field)
still hold `{level 0, left 3}` afterwards, they are not reset to null
as the claim states. -/
theorem handleSegmentDrop_no_hover_cex :
    (handleSegmentDrop { levels := [], drag := some ⟨0, 3, none⟩ } (some ⟨0, 3, none⟩)
        ⟨1, 5⟩ true =
      some ({ levels := [], drag := some ⟨0, 3, none⟩ }, some ⟨0, 3, none⟩, [])) ∧
    (some (⟨0, 3, none⟩ : DragPos)) ≠ none := by
  exact ⟨by decide, by decide⟩

/-- C4 as amended: if `handleSegmentDrop` fires when no hover was
recorded (`hoverData` is null), no reorder callback is invoked and the
handler returns immediately **without touching any state**: the shared
drag-position cell and every state field (including `drag` and `hover`)
keep their previous values. -/
theorem handleSegmentDrop_no_hover (s : RowState) (g : Option DragPos) (dropPos : Pos)
    (cb : Bool) (h : s.hoverData = none) :
    handleSegmentDrop s g dropPos cb = some (s, g, []) := by
  simp [handleSegmentDrop, h]

/-- Witness for the amended C4 at a concrete input: a drop into an idle
hover with a live drag position returns everything unchanged. -/
theorem handleSegmentDrop_no_hover_witness :
    handleSegmentDrop { levels := [], drag := some ⟨2, 7, none⟩, hover := some ⟨1, 1⟩ }
        (some ⟨2, 7, none⟩) ⟨0, 0⟩ true =
      some ({ levels := [], drag := some ⟨2, 7, none⟩, hover := some ⟨1, 1⟩ },
            some ⟨2, 7, none⟩, []) :=
  handleSegmentDrop_no_hover _ _ _ _ (by decide)

/-- `filterMap` keeps as many elements as satisfy `(f a).isSome`. -/
lemma length_filterMap_eq_countP {α β : Type} (f : α → Option β) :
    ∀ l : List α, (l.filterMap f).length = l.countP (fun a => (f a).isSome)
  | [] => rfl
  | a :: l => by
    cases h : f a <;>
      simp [List.filterMap_cons, h, List.countP_cons, length_filterMap_eq_countP f l]

/-- `find?` succeeds exactly on lists where some element satisfies the
predicate. -/
lemma find?_isSome_eq_any {α : Type} (p : α → Bool) :
    ∀ l : List α, (l.find? p).isSome = l.any p
  | [] => rfl
  | a :: l => by
    cases h : p a <;> simp [List.find?_cons, h, find?_isSome_eq_any p l]

/-- C6: a drop with a recorded hover resolves the segment at the
tracked drag position, collects the events found at the drag's column
across all rows in row order, invokes the reorder callback exactly once
with `(draggedEvent, hoverData, originLevel, targetLevel,
orderedEvents)` — origin being the tracked drag level and target the
drop position's level — nulls the shared cell and clears
`hover`/`hoverData`; the ordered list has one entry per row containing
a segment at that column. -/
theorem handleSegmentDrop_reorder (s : RowState) (drag : DragPos) (dropPos : Pos)
    (hoverData : Event) (row : List Seg) (dragSeg : Seg)
    (hhd : s.hoverData = some hoverData)
    (hrow : s.levels[drag.level]? = some row)
    (hfind : row.find? (fun sg => drag.left == sg.left) = some dragSeg) :
    ∃ evs, handleSegmentDrop s (some drag) dropPos true =
        some ({ s with hover := none, hoverData := none }, none,
              [ReorderCall.reorder dragSeg.event hoverData drag.level dropPos.level evs]) ∧
      evs = s.levels.filterMap (fun r =>
        (r.find? (fun sg => drag.left == sg.left)).map (fun sg => sg.event)) ∧
      evs.length = s.levels.countP (fun r => r.any (fun sg => drag.left == sg.left)) := by
  refine ⟨_, ?_, rfl, ?_⟩
  · simp [handleSegmentDrop, hhd, hrow, hfind]
  · rw [length_filterMap_eq_countP]
    congr 1
    funext r
    rw [Option.isSome_map']
    exact find?_isSome_eq_any _ r

/-- Witness for C6, the spec's scenario shape: two rows with segments
at column 3, drag tracked at `{level 0, left 3}`, drop at
`{level 1, left 5}` → one reorder call with origin 0, target 1 and an
ordered list of length 2 (both rows hold a segment at column 3). -/
theorem handleSegmentDrop_reorder_witness :
    ∃ evs, handleSegmentDrop
        { levels := [[{ event := { id := 0 }, left := 3, right := 4, level := 0 }],
                     [{ event := { id := 1 }, left := 3, right := 4, level := 1 }]],
          hoverData := some { id := 1 } }
        (some ⟨0, 3, none⟩) ⟨1, 5⟩ true =
        some ({ levels := [[{ event := { id := 0 }, left := 3, right := 4, level := 0 }],
                           [{ event := { id := 1 }, left := 3, right := 4, level := 1 }]],
                hoverData := none, hover := none }, none,
              [ReorderCall.reorder { id := 0 } { id := 1 } 0 1 evs]) ∧
      evs = [{ id := 0 }, { id := 1 }] ∧ evs.length = 2 := by
  have h := handleSegmentDrop_reorder
    { levels := [[{ event := { id := 0 }, left := 3, right := 4, level := 0 }],
                 [{ event := { id := 1 }, left := 3, right := 4, level := 1 }]],
      hoverData := some { id := 1 } }
    ⟨0, 3, none⟩ ⟨1, 5⟩ { id := 1 }
    [{ event := { id := 0 }, left := 3, right := 4, level := 0 }]
    { event := { id := 0 }, left := 3, right := 4, level := 0 }
    rfl (by decide) (by decide)
  obtain ⟨evs, h1, h2, _⟩ := h
  refine ⟨evs, h1, ?_, ?_⟩ <;> rw [h2] <;> decide

/-! ## Claims about the hover-exit handler -/

/-- C9 counterexample: with a recorded hover (`hover = {0,1}`,
`hoverData` set) and a live drag, the background-cell hover-exit
handler returns every field unchanged — in particular `hover` is still
`{0,1}`, not cleared as the claim states. -/
theorem handleBackgroundCellHoverExit_cex :
    (handleBackgroundCellHoverExit (fun _ => []) []
        { levels := [], drag := some ⟨0, 1, none⟩, hover := some ⟨0, 1⟩,
          hoverData := some { id := 2 } } (some ⟨0, 1, none⟩) =
      ({ levels := [], drag := some ⟨0, 1, none⟩, hover := some ⟨0, 1⟩,
         hoverData := some { id := 2 } }, some ⟨0, 1, none⟩)) ∧
    (some (⟨0, 1⟩ : Pos)) ≠ none := by
  exact ⟨by decide, by decide⟩

/-- C9 as amended: when the pointer exits all tracked drop targets the
hover-exit handler performs no state change at all — `hover` and
`hoverData` are left exactly as they were, and so are the tracked drag
position and the shared cell (the `setState` that would reset them is
commented out in the source). -/
theorem handleBackgroundCellHoverExit_frame (wl : List Event → List (List Seg))
    (events : List Event) (s : RowState) (g : Option DragPos) :
    handleBackgroundCellHoverExit wl events s g = (s, g) := rfl

/-! ## The Drop-Target Adapter (`backgroundWrapper.js` and `part_001`)

Both files define `createWrapper(type)` with a `dropTarget` object whose
`hover` and `drop` methods translate drag-and-drop notifications into
host callbacks.  The `monitor.getItem()` payload is `{type, data}`
(`Item` below); `monitor.getItemType()` is the registered drag type.
The item-type constants come from `./itemTypes` (not under `src/`);
modelled from the spec: items carry `type: "event"|"resize"`, matching
the literals `DropTarget(['event', 'resize'], ...)` in both files, so
`ItemTypes.EVENT = "event"` and `ItemTypes.RESIZE = "resize"`.
Accessor lookup `get(event, accessor)` is modelled by function-valued
accessors.  The shared throttle cell `window.RBC_RESIZE_VALUE` is the
explicit `Option Instant` argument, compared through an abstract
`toStr` function modelling JS `Date#toString`. -/

/-- A drag item `{type, data}` as returned by `monitor.getItem()`. -/
structure Item where
  type : String
  data : Event
deriving DecidableEq, Repr

/-- One emitted host callback of the Drop-Target Adapter.  `eventDrop`'s
phase is `none` for the `backgroundWrapper.js` drop handler, which
calls `onEventDrop({...})` without a phase argument. -/
inductive AdapterCall where
  | eventDrop (phase : Option String) (event : Event) (start end_ : Instant)
  | eventResize (phase : String) (event : Event) (start end_ : Instant)
  | outsideEventDrop (event : Event) (start : Instant)
deriving DecidableEq, Repr

/-- Result of one `hover` invocation: the new value of the shared
throttle cell, the emitted callbacks, and whether the invocation
completed normally (`ok := false` models a thrown `ReferenceError`). -/
structure HoverResult where
  rbcResizeValue : Option Instant
  calls : List AdapterCall
  ok : Bool
deriving DecidableEq, Repr

/-- The throttle guard at the head of both hover handlers:
`window.RBC_RESIZE_VALUE && window.RBC_RESIZE_VALUE.toString() ===
value.toString()` (a `Date` cell is always truthy when set). -/
def hoverThrottled (toStr : Instant → String) (g : Option Instant) (value : Instant) : Bool :=
  match g with
  | some w => toStr w == toStr value
  | none => false

/-- The callbacks and completion flag of a non-throttled `part_001`
hover (everything after `window.RBC_RESIZE_VALUE = value`): a resize
item emits `onEventResize('hover', ...)` with the proposed start
(`resizeL`) or proposed end (`resizeR`); an event item that is not an
outside event reaches `onEventDrop('hover', ...)`, but `onEventDrop`
is not bound in that scope in the source (it is absent from the
destructured context), so the invocation throws a `ReferenceError`
(`false` flag) after the throttle cell was already updated. -/
def hoverEmits_p1 (startAcc endAcc : Event → Instant) (value : Instant)
    (itemType : String) (item : Item) : List AdapterCall × Bool :=
  let start := startAcc item.data
  let end_ := endAcc item.data
  if itemType == "resize" then
    if item.type == "resizeL" then ([.eventResize "hover" item.data value end_], true)
    else if item.type == "resizeR" then ([.eventResize "hover" item.data start value], true)
    else ([], true)
  else if itemType == "event" && item.type != "outsideEvent" then ([], false)
  else ([], true)

/-- `dropTarget.hover` from `part_001`: early return when throttled,
else store the hovered value in the shared cell and emit per
`hoverEmits_p1`. -/
def hoverHandler_p1 (toStr : Instant → String) (startAcc endAcc : Event → Instant)
    (g : Option Instant) (value : Instant) (itemType : String) (item : Item) : HoverResult :=
  if hoverThrottled toStr g value then ⟨g, [], true⟩
  else ⟨some value, (hoverEmits_p1 startAcc endAcc value itemType item).1,
        (hoverEmits_p1 startAcc endAcc value itemType item).2⟩

/-- The callbacks of a non-throttled `backgroundWrapper.js` hover: a
resize item emits `onEventResize('drop', ...)` — the `'drop'` phase,
not `'hover'` — and every other item type falls through silently. -/
def hoverEmits_bgw (startAcc endAcc : Event → Instant) (value : Instant)
    (itemType : String) (item : Item) : List AdapterCall × Bool :=
  let start := startAcc item.data
  let end_ := endAcc item.data
  if itemType == "resize" then
    if item.type == "resizeL" then ([.eventResize "drop" item.data value end_], true)
    else if item.type == "resizeR" then ([.eventResize "drop" item.data start value], true)
    else ([], true)
  else ([], true)

/-- `dropTarget.hover` from `backgroundWrapper.js`: same throttle guard
and cell update as `part_001`, but resize hovers emit the `'drop'`
phase. -/
def hoverHandler_bgw (toStr : Instant → String) (startAcc endAcc : Event → Instant)
    (g : Option Instant) (value : Instant) (itemType : String) (item : Item) : HoverResult :=
  if hoverThrottled toStr g value then ⟨g, [], true⟩
  else ⟨some value, (hoverEmits_bgw startAcc endAcc value itemType item).1,
        (hoverEmits_bgw startAcc endAcc value itemType item).2⟩

/-- `dropTarget.drop` from `part_001`: an event item tagged (inside its
user-settable `data`) as `outsideEvent` goes to `onOutsideEventDrop`
with the cell value only; any other event item goes to
`onEventDrop('drop', ...)` with `getEventTimes`; a resize item goes to
`onEventResize('drop', ...)` with the proposed edge. -/
def dropHandler_p1 (startAcc endAcc : Event → Instant) (type : String) (value : Instant)
    (itemType : String) (item : Item) : List AdapterCall :=
  let start := startAcc item.data
  let end_ := endAcc item.data
  if itemType == "event" then
    if item.data.type == "outsideEvent" then [.outsideEventDrop item.data value]
    else
      let t := getEventTimes start end_ value type
      [.eventDrop (some "drop") item.data t.start t.end_]
  else if itemType == "resize" then
    if item.type == "resizeL" then [.eventResize "drop" item.data value end_]
    else if item.type == "resizeR" then [.eventResize "drop" item.data start value]
    else []
  else []

/-- `dropTarget.drop` from `backgroundWrapper.js`: as in `part_001`
except the outside-event test reads the item's `type` tag and
`onEventDrop` is called without a phase argument. -/
def dropHandler_bgw (startAcc endAcc : Event → Instant) (type : String) (value : Instant)
    (itemType : String) (item : Item) : List AdapterCall :=
  let start := startAcc item.data
  let end_ := endAcc item.data
  if itemType == "event" then
    if item.type == "outsideEvent" then [.outsideEventDrop item.data value]
    else
      let t := getEventTimes start end_ value type
      [.eventDrop none item.data t.start t.end_]
  else if itemType == "resize" then
    if item.type == "resizeL" then [.eventResize "drop" item.data value end_]
    else if item.type == "resizeR" then [.eventResize "drop" item.data start value]
    else []
  else []

/-- The two revisions of the background-wrapper module present in the
repository; all their drop-target instances share the one
`window.RBC_RESIZE_VALUE` cell. -/
inductive AdapterImpl where
  | part001
  | bgWrapper
deriving DecidableEq, Repr

/-- Dispatch a hover to the chosen revision's handler. -/
def runHover : AdapterImpl → (Instant → String) → (Event → Instant) → (Event → Instant) →
    Option Instant → Instant → String → Item → HoverResult
  | .part001 => hoverHandler_p1
  | .bgWrapper => hoverHandler_bgw

/-- Any hover invocation leaves the shared throttle cell holding a
value that stringifies like the hovered value (either the throttled
cell it kept, or the hovered value it stored). -/
lemma runHover_cell_spec (a : AdapterImpl) (toStr : Instant → String)
    (sa ea : Event → Instant) (g : Option Instant) (v : Instant) (it : String) (item : Item) :
    ∃ w, (runHover a toStr sa ea g v it item).rbcResizeValue = some w ∧ toStr w = toStr v := by
  have hgen : ∀ r : HoverResult,
      (hoverThrottled toStr g v = true → r = ⟨g, [], true⟩) →
      (hoverThrottled toStr g v = false → r.rbcResizeValue = some v) →
      ∃ w, r.rbcResizeValue = some w ∧ toStr w = toStr v := by
    intro r ht hf
    by_cases h : hoverThrottled toStr g v
    · cases hg : g with
      | none => rw [hg] at h; simp [hoverThrottled] at h
      | some w =>
        refine ⟨w, by rw [ht h, hg], ?_⟩
        rw [hg] at h
        simpa [hoverThrottled] using h
    · exact ⟨v, hf (by simpa using h), rfl⟩
  cases a
  · exact hgen _ (fun h => by simp [runHover, hoverHandler_p1, h])
      (fun h => by simp [runHover, hoverHandler_p1, h])
  · exact hgen _ (fun h => by simp [runHover, hoverHandler_bgw, h])
      (fun h => by simp [runHover, hoverHandler_bgw, h])

/-- C10: the hover throttle is process-wide — for two consecutive hover
invocations whose values stringify equally, the second returns with the
cell untouched and **no** callback emitted, whichever of the two
module revisions, which wrapper instance (accessors/type) and which
item kind either invocation goes through. -/
theorem hover_throttle_consecutive (a1 a2 : AdapterImpl) (toStr : Instant → String)
    (sa1 ea1 sa2 ea2 : Event → Instant) (g : Option Instant)
    (v1 v2 : Instant) (it1 it2 : String) (item1 item2 : Item)
    (h : toStr v1 = toStr v2) :
    runHover a2 toStr sa2 ea2
        (runHover a1 toStr sa1 ea1 g v1 it1 item1).rbcResizeValue v2 it2 item2 =
      ⟨(runHover a1 toStr sa1 ea1 g v1 it1 item1).rbcResizeValue, [], true⟩ := by
  obtain ⟨w, hw, hts⟩ := runHover_cell_spec a1 toStr sa1 ea1 g v1 it1 item1
  rw [hw]
  have hthr : hoverThrottled toStr (some w) v2 = true := by
    simp [hoverThrottled, hts.trans h]
  cases a2
  · simp [runHover, hoverHandler_p1, hthr]
  · simp [runHover, hoverHandler_bgw, hthr]

/-- Witness for C10: a resize hover through the `part_001` handler at
value `5`, immediately followed by an event hover through the
`backgroundWrapper.js` handler at the same value, leaves the cell as
is and emits nothing on the second invocation. -/
theorem hover_throttle_consecutive_witness :
    (runHover .bgWrapper toString Event.start Event.end_
        (runHover .part001 toString Event.start Event.end_ none 5 "resize"
          ⟨"resizeL", { id := 0 }⟩).rbcResizeValue 5 "event" ⟨"", { id := 1 }⟩ =
      ⟨(runHover .part001 toString Event.start Event.end_ none 5 "resize"
          ⟨"resizeL", { id := 0 }⟩).rbcResizeValue, [], true⟩) ∧
    toString (5 : Instant) = toString (5 : Instant) :=
  ⟨hover_throttle_consecutive .part001 .bgWrapper toString Event.start Event.end_
      Event.start Event.end_ none 5 5 "resize" "event"
      ⟨"resizeL", { id := 0 }⟩ ⟨"", { id := 1 }⟩ rfl, rfl⟩

/-- C7: in `backgroundWrapper.js` a hover tick of a left-edge resize
emits `onEventResize` with phase `'drop'`, not the `'hover'` phase the
spec prescribes for live preview; the `part_001` revision of the same
handler emits `'hover'` on the same input, and the drop handler emits
`'drop'` — so the phases of hover and drop coincide in
`backgroundWrapper.js` instead of being distinct. -/
theorem resizeHover_phase_divergence :
    (hoverHandler_bgw toString Event.start Event.end_ none 2000 "resize"
        ⟨"resizeL", { id := 1, start := 1000, end_ := 5000 }⟩).calls =
      [.eventResize "drop" { id := 1, start := 1000, end_ := 5000 } 2000 5000] ∧
    (hoverHandler_p1 toString Event.start Event.end_ none 2000 "resize"
        ⟨"resizeL", { id := 1, start := 1000, end_ := 5000 }⟩).calls =
      [.eventResize "hover" { id := 1, start := 1000, end_ := 5000 } 2000 5000] ∧
    dropHandler_bgw Event.start Event.end_ "dayWrapper" 3000 "resize"
        ⟨"resizeL", { id := 1, start := 1000, end_ := 5000 }⟩ =
      [.eventResize "drop" { id := 1, start := 1000, end_ := 5000 } 3000 5000] ∧
    "drop" ≠ "hover" := by
  exact ⟨by decide, by decide, by decide, by decide⟩

end RBC
